import Mathlib

/-!
Shallow embedding of the CF-1.8 ingestion pipeline of OceanEnvSystem
(`backend/app/services/cf_validator.py`, `cf_converter.py`, `cf_monitor.py`).

Pure data manipulation (attribute checks, result assembly, branch structure,
filesystem moves) is translated directly from the Python source.  Effects of
external libraries (xarray dataset loading/writing, OS locks) are modelled as
oracle parameters: each call site takes the library's reported outcome as an
input, and the embedding performs exactly the filesystem updates the Python
code performs around that call.
-/

/-- Contiguous-sublist test on character lists. -/
def listInfix (n : List Char) : List Char → Bool
  | [] => n.isEmpty
  | c :: t => n.isPrefixOf (c :: t) || listInfix n t

/-- Python's `needle in haystack` on strings: substring test. -/
def strContains (needle haystack : String) : Bool :=
  listInfix needle.toList haystack.toList

/-- ASCII `str.lower` on one character (the pipeline only lowercases
ASCII variable names and paths). -/
def asciiLower (c : Char) : Char :=
  if 'A' ≤ c ∧ c ≤ 'Z' then Char.ofNat (c.toNat + 32) else c

/-- ASCII `str.upper` on one character. -/
def asciiUpper (c : Char) : Char :=
  if 'a' ≤ c ∧ c ≤ 'z' then Char.ofNat (c.toNat - 32) else c

/-- `str.lower`. -/
def strToLower (s : String) : String := String.mk (s.toList.map asciiLower)

/-- `str.upper`. -/
def strToUpper (s : String) : String := String.mk (s.toList.map asciiUpper)

/-- `str.endswith`. -/
def strEndsWith (s sfx : String) : Bool :=
  sfx.toList.reverse.isPrefixOf s.toList.reverse

/-- Split a character list at every occurrence of `sep`. -/
def splitOnChar (sep : Char) : List Char → List (List Char)
  | [] => [[]]
  | c :: t =>
    let r := splitOnChar sep t
    if c = sep then [] :: r
    else match r with
      | [] => [[c]]
      | h :: t' => (c :: h) :: t'

/-- Prepend a character onto the first chunk of a split result. -/
def consHead (c : Char) : List (List Char) → List (List Char)
  | [] => [[c]]
  | h :: t => (c :: h) :: t

/-- Fuelled worker for `str.split(sep)` with a multi-character separator. -/
def splitOnFuel (sep : List Char) : Nat → List Char → List (List Char)
  | 0, cs => [cs]
  | fuel + 1, cs =>
    if sep.isPrefixOf cs ∧ sep ≠ [] then [] :: splitOnFuel sep fuel (cs.drop sep.length)
    else match cs with
      | [] => [[]]
      | c :: t => consHead c (splitOnFuel sep fuel t)

/-- `str.split(sep)` for a non-empty separator. -/
def strSplitOn (s sep : String) : List String :=
  (splitOnFuel sep.toList s.toList.length s.toList).map String.mk

/-- A filesystem: maps a path to the content of the file stored there, if any. -/
abbrev FS : Type := String → Option String

/-- Write (create or overwrite) the file at `p`. -/
def fsSet (fs : FS) (p : String) (c : String) : FS :=
  fun q => if q = p then some c else fs q

/-- Remove the file at `p` (no-op if absent, matching a guarded `unlink`). -/
def fsDel (fs : FS) (p : String) : FS :=
  fun q => if q = p then none else fs q

/-- `os.path.exists`. -/
def fsExists (fs : FS) (p : String) : Bool := (fs p).isSome

/-- `pathlib.Path.parts`, for the slash-separated paths this pipeline uses. -/
def pathParts (p : String) : List String := (splitOnChar '/' p.toList).map String.mk

/-- `pathlib.Path.name`: the final path component. -/
def fileNameOf (p : String) : String := (pathParts p).getLastD ""

/-- `pathlib.Path.stem` of a file name: the name up to its last dot
(a leading dot does not count as an extension separator). -/
def stemOf (nm : String) : String :=
  let cs := nm.toList
  match cs.reverse.findIdx? (· = '.') with
  | none => nm
  | some k =>
    let i := cs.length - 1 - k
    if i = 0 then nm else String.mk (cs.take i)

/-- `_is_netcdf_file`: case-insensitive extension test. -/
def is_netcdf_file (p : String) : Bool :=
  let l := strToLower p
  strEndsWith l ".nc" || strEndsWith l ".netcdf" || strEndsWith l ".nc4"

/-- Attribute lookup in an attribute list (a Python dict restricted to
string-valued attributes, which is all the pipeline's checks read). -/
def attrGet (attrs : List (String × String)) (k : String) : Option String :=
  (attrs.find? (fun kv => decide (kv.1 = k))).map (·.2)

def attrHas (attrs : List (String × String)) (k : String) : Bool :=
  (attrGet attrs k).isSome

namespace CFValidator

/-- `ValidationLevel`. -/
inductive VLevel
  | critical
  | warning
  | info
deriving DecidableEq

/-- `ValidationIssue`. -/
structure VIssue where
  level : VLevel
  code : String
  message : String
  location : String
  suggestion : Option String := none
deriving DecidableEq

/-- `ValidationResult`. -/
structure VResult where
  is_valid : Bool
  issues : List VIssue
  cf_version : Option String := none
deriving DecidableEq

/-- A NetCDF variable as the validator sees it: its attributes, whether it
contains missing/NaN values (`isnull().any()`), and nothing else. -/
structure NCVar where
  attrs : List (String × String)
  hasNull : Bool := false
deriving DecidableEq

/-- An opened NetCDF dataset as the validator sees it. -/
structure NCDataset where
  attrs : List (String × String)
  coords : List (String × NCVar)
  dataVars : List (String × NCVar)
  dims : List (String × Nat)
deriving DecidableEq

/-- `STANDARD_COORD_NAMES` (insertion order preserved). -/
def STANDARD_COORD_NAMES : List (String × List String) :=
  [("longitude", ["longitude", "lon", "x"]),
   ("latitude", ["latitude", "lat", "y"]),
   ("time", ["time", "t"]),
   ("depth", ["depth", "z", "level"]),
   ("pressure", ["pressure", "pres"])]

/-- `COMMON_STANDARD_NAMES` (insertion order preserved). -/
def COMMON_STANDARD_NAMES : List (String × List String) :=
  [("sea_water_temperature", ["temperature", "temp", "t"]),
   ("sea_water_salinity", ["salinity", "salt", "s"]),
   ("sea_water_pressure", ["pressure", "pres", "p"]),
   ("depth", ["depth", "z"])]

/-- `_suggest_standard_name`: first substring match in `COMMON_STANDARD_NAMES`,
then in `STANDARD_COORD_NAMES`. -/
def suggest_standard_name (vn : String) : Option String :=
  let l := strToLower vn
  match COMMON_STANDARD_NAMES.find? (fun kv => kv.2.any (fun n => strContains n l)) with
  | some kv => some kv.1
  | none =>
    (STANDARD_COORD_NAMES.find? (fun kv => kv.2.any (fun n => strContains n l))).map (·.1)

/-- `_check_global_attributes`. -/
def check_global_attributes (ds : NCDataset) : List VIssue :=
  (match attrGet ds.attrs "Conventions" with
   | none =>
     [{ level := .critical, code := "MISSING_CONVENTIONS",
        message := "缺少Conventions属性", location := "global",
        suggestion := some "添加 Conventions = 'CF-1.8'" }]
   | some conv =>
     if strContains "CF" conv then
       [{ level := .info, code := "CONVENTIONS_FOUND",
          message := "发现CF版本: " ++ conv, location := "global" }]
     else
       [{ level := .critical, code := "INVALID_CONVENTIONS",
          message := "Conventions属性无效: " ++ conv, location := "global",
          suggestion := some "设置 Conventions = 'CF-1.8'" }])
  ++ (["title", "institution", "source", "history"].filterMap fun a =>
      if attrHas ds.attrs a then none
      else some { level := .warning, code := "MISSING_" ++ strToUpper a,
                  message := "缺少推荐的全局属性: " ++ a, location := "global",
                  suggestion := some ("添加 " ++ a ++ " 属性") })

/-- The inner loop of
`any(name in coords for names in STANDARD_COORD_NAMES[key] for name in names)`:
because `names` ranges over the alias *strings*, `name` ranges over their
*characters*, and each single-character string is tested for membership among
the coordinate names. Translated faithfully from the source. -/
def has_coord_by_chars (coordNames : List String) (aliases : List String) : Bool :=
  aliases.any fun nm => nm.toList.any fun ch => coordNames.any fun c => decide (c = String.mk [ch])

/-- `_check_coordinate_attributes`. -/
def check_coordinate_attributes (nm : String) (v : NCVar) : List VIssue :=
  (if attrHas v.attrs "units" then []
   else [{ level := .warning, code := "COORD_MISSING_UNITS",
           message := "坐标变量 '" ++ nm ++ "' 缺少units属性",
           location := "coordinate:" ++ nm,
           suggestion := some "添加适当的units属性" }])
  ++ (if attrHas v.attrs "standard_name" then []
      else match suggest_standard_name nm with
        | some sug =>
          [{ level := .warning, code := "COORD_MISSING_STANDARD_NAME",
             message := "坐标变量 '" ++ nm ++ "' 缺少standard_name属性",
             location := "coordinate:" ++ nm,
             suggestion := some ("建议添加 standard_name = '" ++ sug ++ "'") }]
        | none => [])

/-- `_check_coordinate_variables`. -/
def check_coordinate_variables (ds : NCDataset) : List VIssue :=
  let coordNames := ds.coords.map (·.1)
  let has_lon := has_coord_by_chars coordNames ["longitude", "lon", "x"]
  let has_lat := has_coord_by_chars coordNames ["latitude", "lat", "y"]
  (if has_lon then []
   else [{ level := .warning, code := "MISSING_LONGITUDE",
           message := "未找到经度坐标变量", location := "coordinates",
           suggestion := some "添加经度坐标变量，建议命名为 'longitude'" }])
  ++ (if has_lat then []
      else [{ level := .warning, code := "MISSING_LATITUDE",
              message := "未找到纬度坐标变量", location := "coordinates",
              suggestion := some "添加纬度坐标变量，建议命名为 'latitude'" }])
  ++ (ds.coords.map fun kv => check_coordinate_attributes kv.1 kv.2).flatten

/-- `_check_data_variable_attributes`. -/
def check_data_variable_attributes (nm : String) (v : NCVar) : List VIssue :=
  (if attrHas v.attrs "long_name" || attrHas v.attrs "standard_name" then []
   else [{ level := .warning, code := "VAR_MISSING_DESCRIPTION",
           message := "数据变量 '" ++ nm ++ "' 缺少long_name或standard_name属性",
           location := "variable:" ++ nm,
           suggestion := some "添加long_name或standard_name属性来描述变量" }])
  ++ (if attrHas v.attrs "units" then []
      else [{ level := .warning, code := "VAR_MISSING_UNITS",
              message := "数据变量 '" ++ nm ++ "' 缺少units属性",
              location := "variable:" ++ nm,
              suggestion := some "添加units属性" }])

/-- `_check_data_variables`. -/
def check_data_variables (ds : NCDataset) : List VIssue :=
  (if ds.dataVars.isEmpty then
     [{ level := .warning, code := "NO_DATA_VARIABLES",
        message := "数据集中没有数据变量", location := "variables" }]
   else [])
  ++ (ds.dataVars.map fun kv => check_data_variable_attributes kv.1 kv.2).flatten

/-- Consume exactly `n` decimal digits. -/
def matchDigits : Nat → List Char → Option (List Char)
  | 0, cs => some cs
  | _ + 1, [] => none
  | n + 1, c :: cs => if c.isDigit then matchDigits n cs else none

/-- Consume the literal `lit`. -/
def matchLit (lit cs : List Char) : Option (List Char) :=
  if lit.isPrefixOf cs then some (cs.drop lit.length) else none

/-- `re.match(r'(seconds|minutes|hours|days) since \d{4}-\d{2}-\d{2}', units)`:
an anchored prefix match, trailing characters allowed. -/
def time_units_match (units : String) : Bool :=
  ["seconds", "minutes", "hours", "days"].any fun w =>
    ((((((matchLit w.toList units.toList).bind
        (matchLit " since ".toList)).bind
        (matchDigits 4)).bind
        (matchLit ['-'])).bind
        (matchDigits 2)).bind
        (fun r => (matchLit ['-'] r).bind (matchDigits 2))).isSome

/-- Is this variable picked up by `_check_time_variables`' search loop? -/
def is_time_var (nm : String) (v : NCVar) : Bool :=
  decide (strToLower nm = "time") || decide (strToLower nm = "t") ||
  decide (attrGet v.attrs "standard_name" = some "time") ||
  strContains "time" (strToLower ((attrGet v.attrs "units").getD ""))

/-- `_check_time_variable_format`. -/
def check_time_variable_format (nm : String) (v : NCVar) : List VIssue :=
  let units := (attrGet v.attrs "units").getD ""
  (if time_units_match units then []
   else [{ level := .warning, code := "INVALID_TIME_UNITS",
           message := "时间变量 '" ++ nm ++ "' 的units格式不规范: " ++ units,
           location := "time:" ++ nm,
           suggestion := some "使用类似 'days since YYYY-MM-DD HH:MM:SS' 的格式" }])
  ++ (if attrHas v.attrs "calendar" then []
      else [{ level := .info, code := "TIME_MISSING_CALENDAR",
              message := "时间变量 '" ++ nm ++ "' 缺少calendar属性",
              location := "time:" ++ nm,
              suggestion := some "建议添加 calendar = 'gregorian'" }])

/-- `_check_time_variables`; `ds.variables` is modelled as coordinates followed
by data variables. -/
def check_time_variables (ds : NCDataset) : List VIssue :=
  let allVars := ds.coords ++ ds.dataVars
  let timeVars := allVars.filter fun kv => is_time_var kv.1 kv.2
  if timeVars.isEmpty then
    [{ level := .warning, code := "NO_TIME_VARIABLE",
       message := "未找到时间变量", location := "time" }]
  else
    (timeVars.map fun kv => check_time_variable_format kv.1 kv.2).flatten

/-- `_check_missing_values`. -/
def check_missing_values (ds : NCDataset) : List VIssue :=
  ds.dataVars.filterMap fun kv =>
    if (attrHas kv.2.attrs "_FillValue" || attrHas kv.2.attrs "missing_value") then none
    else if kv.2.hasNull then
      some { level := .warning, code := "MISSING_VALUE_NOT_DEFINED",
             message := "变量 '" ++ kv.1 ++ "' 包含缺失值但未定义_FillValue",
             location := "variable:" ++ kv.1,
             suggestion := some "添加_FillValue属性" }
    else none

/-- `_check_dimensions`. -/
def check_dimensions (ds : NCDataset) : List VIssue :=
  let unlimited := (ds.dims.filter fun kv => decide (kv.2 = 0)).map (·.1)
  if unlimited.isEmpty then []
  else [{ level := .info, code := "UNLIMITED_DIMENSIONS",
          message := "发现无限维度: " ++ String.intercalate ", " unlimited,
          location := "dimensions" }]

/-- All checks of `validate_file`, in source order. -/
def validate_dataset (ds : NCDataset) : List VIssue :=
  check_global_attributes ds
  ++ check_coordinate_variables ds
  ++ check_data_variables ds
  ++ check_time_variables ds
  ++ check_missing_values ds
  ++ check_dimensions ds

/-- `CFValidator.validate_file`: `opened = none` models `xr.open_dataset`
raising (file unreadable). -/
def validate_file (opened : Option NCDataset) : VResult :=
  let issues : List VIssue :=
    match opened with
    | none =>
      [{ level := .critical, code := "FILE_READ_ERROR",
         message := "无法读取NetCDF文件", location := "file" }]
    | some ds => validate_dataset ds
  { is_valid := (issues.filter fun i => decide (i.level = .critical)).isEmpty
    issues := issues
    cf_version := (issues.find? (fun i => decide (i.code = "CONVENTIONS_FOUND"))).map
      (fun i => (strSplitOn i.message ": ").getLastD i.message) }

end CFValidator

/-- A dataset whose coordinates include a variable literally named
`longitude` (and `latitude`), used to exhibit the alias-table bug. -/
def dsNamedLonLat : CFValidator.NCDataset :=
  { attrs := [("Conventions", "CF-1.8"), ("title", "t"), ("institution", "i"),
              ("source", "s"), ("history", "h")]
    coords := [("longitude", { attrs := [("units", "degrees_east"), ("standard_name", "longitude")] }),
               ("latitude", { attrs := [("units", "degrees_north"), ("standard_name", "latitude")] })]
    dataVars := [("temperature",
      { attrs := [("standard_name", "sea_water_temperature"), ("units", "degree_C")] })]
    dims := [("longitude", 4), ("latitude", 4)] }

namespace CFConverter

open CFValidator

open CFValidator

/-- The per-issue dict `{'level','code','message','location'}` the converter
builds for `issues_fixed` / `remaining_issues` (the suggestion is dropped and
the level is rendered via `.value`). -/
structure IssueOut where
  level : String
  code : String
  message : String
  location : String
deriving DecidableEq

/-- `ValidationLevel.value`. -/
def levelValue : VLevel → String
  | .critical => "critical"
  | .warning => "warning"
  | .info => "info"

/-- Render one `ValidationIssue` as the converter's result dict. -/
def toOut (i : VIssue) : IssueOut :=
  { level := levelValue i.level, code := i.code,
    message := i.message, location := i.location }

/-- `_get_fixed_issues`: issues of the original validation whose code is in
`original_codes - final_codes`. -/
def get_fixed_issues (original finalv : VResult) : List IssueOut :=
  let originalCodes := original.issues.map (·.code)
  let finalCodes := finalv.issues.map (·.code)
  (original.issues.filter fun i =>
      originalCodes.any (fun cc => decide (cc = i.code))
      && !(finalCodes.any (fun cc => decide (cc = i.code)))).map toOut

/-- The `remaining_issues` list: Critical issues of the final validation. -/
def remaining_of (v : VResult) : List IssueOut :=
  (v.issues.filter fun i => decide (i.level = VLevel.critical)).map toOut

/-- Reported outcome of one `ds_copy.to_netcdf(output_path, …)` engine
attempt.  The on-disk effect of a *failing* attempt is the external library's,
not this code's, so it is part of the oracle: `fail (some c)` failed after
leaving a partial file `c` at the output path, `fail none` failed without
touching the output path. -/
inductive EngineOutcome
  | ok
  | fail (leftover : Option String)
deriving DecidableEq

/-- Oracle inputs for one `convert_file` run: platform lock behaviour, the
outcome of loading + `_convert_dataset` (`none` = it raised), and the four
save-engine outcomes. -/
structure ConvOracle where
  useFcntl : Bool
  flockOk : Bool
  transform : Option String
  e1 : EngineOutcome
  e2 : EngineOutcome
  e3 : EngineOutcome
  e4 : EngineOutcome

/-- The converter's result dict. -/
structure ConvResult where
  success : Bool
  message : String
  issues_fixed : List IssueOut
  remaining_issues : List IssueOut
  backup_path : Option String
deriving DecidableEq

/-- `lock_path = input_path + '.lock'`. -/
def lock_path_of (input : String) : String := input ++ ".lock"

/-- `os.path.join(os.getcwd(), "data", "processing", f"backup_{filename}")`,
with the working directory as the filesystem root. -/
def backup_path_of (input : String) : String :=
  "data/processing/" ++ ("backup_" ++ fileNameOf input)

/-- The lock-contention result. -/
def busy_result : ConvResult :=
  { success := false, message := "文件正在被其他进程处理，跳过转换",
    issues_fixed := [], remaining_issues := [], backup_path := none }

/-- `validate_file` on a path: reads the file; an unreadable/absent file gives
the single-Critical `FILE_READ_ERROR` result.  `valOf` is the validation
verdict as a function of file content (the dataset's metadata). -/
def valAt (valOf : String → VResult) (fs : FS) (p : String) : VResult :=
  match fs p with
  | none => CFValidator.validate_file none
  | some c => valOf c

/-- Apply a failing attempt's leftover to the output path. -/
def applyLeftover (fs : FS) (out : String) : Option String → FS
  | none => fs
  | some c => fsSet fs out c

/-- One engine attempt of `_save_dataset`. -/
def attempt_save (fs : FS) (out content : String) (e : EngineOutcome) : Bool × FS :=
  match e with
  | .ok => (true, fsSet fs out content)
  | .fail lo => (false, applyLeftover fs out lo)

/-- `_save_dataset`: netcdf4, then h5netcdf, then stripped encodings with
netcdf4, then NETCDF3_CLASSIC; the first success wins, and exhausting all four
raises (returned here as `false`).  No attempt deletes anything. -/
def save_dataset (fs : FS) (out content : String)
    (e1 e2 e3 e4 : EngineOutcome) : Bool × FS :=
  let r1 := attempt_save fs out content e1
  if r1.1 then r1 else
  let r2 := attempt_save r1.2 out content e2
  if r2.1 then r2 else
  let r3 := attempt_save r2.2 out content e3
  if r3.1 then r3 else
  attempt_save r3.2 out content e4

/-- The body of `convert_file` once the lock file has been created and
acquired; every exit below runs the `finally` block, which closes the lock
file handle and unlinks the lock file. -/
def convert_body (fs1 : FS) (input output : String) (backup : Bool)
    (valOf : String → VResult) (o : ConvOracle) : ConvResult × FS :=
  let lockp := lock_path_of input
  let preVal := valAt valOf fs1 input
  match fs1 input with
  | none =>
    -- the input file vanished: the subsequent copy/load raises and is caught
    ({ success := false, message := "转换失败", issues_fixed := [],
       remaining_issues := [], backup_path := none }, fsDel fs1 lockp)
  | some c =>
    if preVal.is_valid then
      let fs2 := if input = output then fs1 else fsSet fs1 output c
      ({ success := true, message := "文件已符合CF-1.8标准", issues_fixed := [],
         remaining_issues := [], backup_path := none }, fsDel fs2 lockp)
    else
      let bp := backup_path_of input
      let fs3 := if backup then (if fsExists fs1 bp then fs1 else fsSet fs1 bp c) else fs1
      let bpath : Option String := if backup then some bp else none
      match o.transform with
      | none =>
        ({ success := false, message := "转换失败", issues_fixed := [],
           remaining_issues := [], backup_path := bpath }, fsDel fs3 lockp)
      | some tc =>
        let sr := save_dataset fs3 output tc o.e1 o.e2 o.e3 o.e4
        if sr.1 then
          let postVal := valAt valOf sr.2 output
          ({ success := true, message := "文件转换完成",
             issues_fixed := get_fixed_issues preVal postVal,
             remaining_issues := remaining_of postVal,
             backup_path := bpath }, fsDel sr.2 lockp)
        else
          ({ success := false, message := "转换失败", issues_fixed := [],
             remaining_issues := [], backup_path := bpath }, fsDel sr.2 lockp)

/-- `CFConverter.convert_file`.  With fcntl, `open(lock_path, 'w')` first
creates/truncates the lock file and a failing non-blocking flock returns the
busy result — through the `finally` block, which unlinks the lock file.
Without fcntl, an existing lock file returns busy with `lock_file` still
`None`, so `finally` touches nothing. -/
def convert_file (fs : FS) (input output : String) (_auto_fix backup : Bool)
    (valOf : String → VResult) (o : ConvOracle) : ConvResult × FS :=
  let lockp := lock_path_of input
  if o.useFcntl then
    let fs1 := fsSet fs lockp ""
    if o.flockOk then convert_body fs1 input output backup valOf o
    else (busy_result, fsDel fs1 lockp)
  else
    if fsExists fs lockp then (busy_result, fs)
    else convert_body (fsSet fs lockp "locked_by_pid") input output backup valOf o

/-- Did this run acquire the advisory lock? -/
def acquires (fs : FS) (o : ConvOracle) (input : String) : Prop :=
  (o.useFcntl = true ∧ o.flockOk = true)
  ∨ (o.useFcntl = false ∧ fsExists fs (lock_path_of input) = false)

/-- What failing engine attempts leave at the output path, folded in order
over the initial content. -/
def leftoverOf : EngineOutcome → Option String
  | .ok => none
  | .fail lo => lo

/-- Fold a sequence of failure leftovers over the initial output content. -/
def overrideChain : Option String → List (Option String) → Option String
  | v, [] => v
  | v, none :: r => overrideChain v r
  | _, some c :: r => overrideChain (some c) r

end CFConverter

/-- A validation verdict with one Critical issue (a non-compliant file). -/
def badVR : CFValidator.VResult :=
  { is_valid := false,
    issues := [{ level := .critical, code := "MISSING_CONVENTIONS",
                 message := "缺少Conventions属性", location := "global" }] }

/-- A validation verdict with only a Warning left (a compliant file). -/
def goodVR : CFValidator.VResult :=
  { is_valid := true,
    issues := [{ level := .warning, code := "VAR_MISSING_UNITS",
                 message := "数据变量 'v' 缺少units属性", location := "variable:v" }] }

/-- Content-keyed validation oracle: the content "old" is non-compliant,
anything else (e.g. converted content) is compliant. -/
def valOfBad : String → CFValidator.VResult := fun c => if c = "old" then badVR else goodVR

/-- Oracle: no fcntl, load/transform succeeds, all four engines fail cleanly. -/
def oAllFailClean : CFConverter.ConvOracle :=
  { useFcntl := false, flockOk := true, transform := some "new",
    e1 := .fail none, e2 := .fail none, e3 := .fail none, e4 := .fail none }

/-- Oracle: all four engines fail, each leaving a partial file behind. -/
def oAllFailPartial : CFConverter.ConvOracle :=
  { useFcntl := false, flockOk := true, transform := some "new",
    e1 := .fail (some "partial"), e2 := .fail (some "partial"),
    e3 := .fail (some "partial"), e4 := .fail (some "partial") }

/-- A filesystem holding just one non-compliant input file. -/
def fsOneInput : FS := fun p => if p = "data/processing/a.nc" then some "old" else none

/-- Oracle: fcntl available, non-blocking flock fails (another holder). -/
def oFcntlBusy : CFConverter.ConvOracle :=
  { useFcntl := true, flockOk := false, transform := some "new",
    e1 := .ok, e2 := .ok, e3 := .ok, e4 := .ok }

/-- Input file plus a lock file held by another process. -/
def fsHeldLock : FS := fun p =>
  if p = "data/raw/in.nc" then some "old"
  else if p = "data/raw/in.nc.lock" then some "held_by_other" else none

/-- A filesystem holding one already-compliant input file. -/
def fsValidInput : FS := fun p => if p = "data/raw/ok.nc" then some "compliant" else none

namespace CFMonitor

open CFValidator CFConverter

open CFValidator CFConverter

/-- The status string `process_file` reports through the callback
(`skip` = an early return with no callback, `exn` = an exception escaped to
`process_file`'s outer handler). -/
inductive MStatus
  | skip
  | valid
  | converted
  | failed
  | errored
  | exn
deriving DecidableEq

/-- Result of one `FileProcessor.process_file` run, plus whether
`convert_netcdf_to_cf` was invoked during it. -/
structure MonResult where
  status : MStatus
  convInvoked : Bool
deriving DecidableEq

/-- Oracles for one `process_file` run: the two `shutil.copy2` calls the
monitor itself performs, and everything the converter needs. -/
structure MonOracle where
  copyStdOk : Bool
  copyProcOk : Bool
  conv : ConvOracle

/-- `any(part in ['processing', 'standard'] for part in path.parts)`. -/
def in_processing_or_standard (p : String) : Bool :=
  (pathParts p).any fun s => decide (s = "processing") || decide (s = "standard")

/-- `_should_skip_file`. -/
def should_skip_file (p : String) : Bool :=
  strContains "_cf" (stemOf (fileNameOf p)) || in_processing_or_standard p

/-- `_move_to_standard`: delete a pre-existing same-named standard file, copy
the file into `standard/`, then delete the raw original.  The Bool is `false`
when the copy raised (the exception propagates to `process_file`); a raw
original that vanished between checks also raises at `copy2`. -/
def move_to_standard (fs : FS) (standardDir fp name : String) (copyOk : Bool) :
    Bool × FS :=
  let stdPath := standardDir ++ "/" ++ name
  let fs1 := fsDel fs stdPath
  if copyOk then
    match fs1 fp with
    | some c =>
      let fs2 := fsSet fs1 stdPath c
      (true, if fsExists fs2 fp && strContains "raw" fp then fsDel fs2 fp else fs2)
    | none => (false, fs1)
  else (false, fs1)

/-- `_convert_file` (the monitor's): copy into `processing/`, delete a
pre-existing same-named standard file, invoke the converter targeting
`standard/`, and delete the raw original only on a successful outcome.
Returns (status, converter-invoked?, filesystem). -/
def convert_and_promote (fs : FS) (dataDir fp name : String)
    (valOf : String → VResult) (orc : MonOracle) : MStatus × Bool × FS :=
  let procPath := dataDir ++ "/processing/" ++ name
  let copyStep : Option FS :=
    if fp = procPath then some fs
    else match fs fp with
      | some c => if orc.copyProcOk then some (fsSet fs procPath c) else none
      | none => none
  match copyStep with
  | none => (.errored, false, fs)
  | some fs2 =>
    let stdPath := dataDir ++ "/standard/" ++ (stemOf name ++ ".nc")
    let fs3 := fsDel fs2 stdPath
    let r := CFConverter.convert_file fs3 procPath stdPath true true valOf orc.conv
    if r.1.success then
      (.converted, true,
       if fsExists r.2 fp && strContains "raw" fp then fsDel r.2 fp else r.2)
    else (.failed, true, r.2)

/-- `FileProcessor.process_file`. -/
def process_file (fs : FS) (dataDir fp0 : String)
    (valOf : String → VResult) (orc : MonOracle) : MonResult × FS :=
  if ¬ fsExists fs fp0 then ({ status := .skip, convInvoked := false }, fs)
  else if ¬ is_netcdf_file fp0 then ({ status := .skip, convInvoked := false }, fs)
  else if strContains "_cf" (stemOf (fileNameOf fp0)) then
    ({ status := .skip, convInvoked := false }, fs)
  else if in_processing_or_standard fp0 then ({ status := .skip, convInvoked := false }, fs)
  else if ¬ strContains "raw" fp0 then ({ status := .skip, convInvoked := false }, fs)
  else
    -- rel_path = file_path.relative_to(data_dir), with the ValueError branch
    -- copying an out-of-tree file into raw/ first
    let inTree := (pathParts dataDir).isPrefixOf (pathParts fp0)
    let fp := if inTree then fp0 else dataDir ++ "/raw/" ++ fileNameOf fp0
    let fs1 :=
      if inTree then fs
      else match fs fp0 with
        | some c => fsSet fs fp c
        | none => fs
    let name := fileNameOf fp
    let v := valAt valOf fs1 fp
    if v.is_valid then
      let r := move_to_standard fs1 (dataDir ++ "/standard") fp name orc.copyStdOk
      if r.1 then ({ status := .valid, convInvoked := false }, r.2)
      else ({ status := .exn, convInvoked := false }, r.2)
    else
      let r := convert_and_promote fs1 dataDir fp name valOf orc
      ({ status := r.1, convInvoked := r.2.1 }, r.2.2)

/-- `NetCDFFileHandler`'s in-memory registries. -/
structure HandlerState where
  processedFiles : List String
  lastProcessTime : String → Nat
  pendingFiles : List (String × Nat)

/-- Is a path in the pending queue? -/
def pending_has (s : HandlerState) (p : String) : Bool :=
  s.pendingFiles.any fun kv => decide (kv.1 = p)

/-- `_schedule_delayed_processing`: dedup against `processed_files` and
`pending_files`; the Bool is whether a new delayed-check worker was started
(which is what later leads to one processing run). -/
def schedule_delayed_processing (s : HandlerState) (p : String) (t : Nat) :
    HandlerState × Bool :=
  if p ∈ s.processedFiles then (s, false)
  else if pending_has s p then
    ({ s with pendingFiles := s.pendingFiles.map fun kv =>
        if kv.1 = p then (p, t) else kv }, false)
  else ({ s with pendingFiles := (p, t) :: s.pendingFiles }, true)

/-- `on_modified`: extension filter, skip filter, processed-set dedup and the
2-second modified-event throttle, then `_schedule_delayed_processing`. -/
def on_modified (s : HandlerState) (p : String) (t : Nat) : HandlerState × Bool :=
  if ¬ is_netcdf_file p then (s, false)
  else if should_skip_file p then (s, false)
  else if p ∈ s.processedFiles then (s, false)
  else if t - s.lastProcessTime p > 2 then
    let r := schedule_delayed_processing s p t
    ({ r.1 with lastProcessTime := fun q => if q = p then t else r.1.lastProcessTime q },
     r.2)
  else (s, false)

/-- One poll observation of `_delayed_file_check`: the path is gone, or it has
a size (with the result the accessibility probe would report), or reading the
size raised. -/
inductive PollObs
  | gone
  | size (n : Nat) (probeOk : Bool)
  | err

/-- How one `_delayed_file_check` worker ends. -/
inductive DOutcome
  | processedStable
  | forcedProcessed
  | abortedGone
  | abortedElsewhere
  | droppedErr
  | droppedTimeout
deriving DecidableEq

/-- The polling loop of `_delayed_file_check`: `max_wait_time = 30`,
`check_interval = 2` and the loop condition `time.time() - start_time < 30`
give at most 15 iterations (the fuel); `stable_checks = 2`; `last_size`
starts at `-1`.  When the fuel runs out, 30 seconds have elapsed and the
post-loop timeout branch force-processes the file if it still exists and was
not processed. -/
def delayed_check_loop (processedInit : Bool) (obs : Nat → PollObs)
    (finalExists : Bool) : Nat → Nat → Nat → Int → DOutcome
  | 0, _, _, _ => if finalExists && !processedInit then .forcedProcessed else .droppedTimeout
  | fuel + 1, i, sc, lastSize =>
    if processedInit then .abortedElsewhere
    else match obs i with
      | .gone => .abortedGone
      | .err => .droppedErr
      | .size n probeOk =>
        let sc' := if (n : Int) = lastSize ∧ n > 0 then sc + 1 else 0
        if sc' ≥ 2 then
          if probeOk then .processedStable
          else delayed_check_loop processedInit obs finalExists fuel (i + 1) 0 (n : Int)
        else delayed_check_loop processedInit obs finalExists fuel (i + 1) sc' (n : Int)

/-- `_delayed_file_check`. -/
def delayed_file_check (processedInit : Bool) (obs : Nat → PollObs)
    (finalExists : Bool) : DOutcome :=
  delayed_check_loop processedInit obs finalExists 15 0 0 (-1)

/-- Modelled from the claim's description of the stabilization algorithm:
loop until `max_wait` (30 s in 2 s polls, so 15 iterations of fuel); each
iteration abort if the path no longer exists, else read the size and
increment the stable-count only when it equals the previous reading and is
non-zero (resetting to 0 otherwise); once the count reaches the required 2
consecutive stable reads, run the accessibility probe and process the file
if it succeeds; if `max_wait` elapses without stabilizing, force-process the
file if it is still present.  The claim does not describe a read error; the
equivalence theorem assumes an error-free trace. -/
def stabilization_spec_loop (obs : Nat → PollObs) (finalExists : Bool) :
    Nat → Nat → Nat → Int → DOutcome
  | 0, _, _, _ => if finalExists then .forcedProcessed else .droppedTimeout
  | fuel + 1, i, sc, prev =>
    match obs i with
    | .gone => .abortedGone
    | .err => .droppedErr
    | .size n probeOk =>
      let sc' := if (n : Int) = prev ∧ n > 0 then sc + 1 else 0
      if sc' ≥ 2 then
        if probeOk then .processedStable
        else stabilization_spec_loop obs finalExists fuel (i + 1) 0 (n : Int)
      else stabilization_spec_loop obs finalExists fuel (i + 1) sc' (n : Int)

/-- The claim-side stabilization check. -/
def stabilization_spec (obs : Nat → PollObs) (finalExists : Bool) : DOutcome :=
  stabilization_spec_loop obs finalExists 15 0 0 (-1)

/-- State update performed by the `_delayed_file_check` worker on its way
out: the pending entry is always removed; on both processing outcomes the
path is marked in `processed_files` before `_schedule_processing`. -/
def after_delayed_check (s : HandlerState) (p : String) (out : DOutcome) :
    HandlerState :=
  let s' := { s with pendingFiles := s.pendingFiles.filter fun kv => decide (kv.1 ≠ p) }
  match out with
  | .processedStable => { s' with processedFiles := p :: s'.processedFiles }
  | .forcedProcessed => { s' with processedFiles := p :: s'.processedFiles }
  | _ => s'

/-- `**/*.nc`-style glob extension test (case-sensitive, unlike the event
handler's). -/
def has_nc_glob_ext (p : String) : Bool :=
  strEndsWith p ".nc" || strEndsWith p ".netcdf" || strEndsWith p ".nc4"

/-- Is the path inside `{data_dir}/raw/`? -/
def under_raw_dir (dataDir p : String) : Bool :=
  (dataDir ++ "/raw/").toList.isPrefixOf p.toList

/-- `scan_existing_files` dispatches `processor.process_file` on every
NetCDF file it finds under `raw/` whose stem lacks `_cf` — it never consults
the event handler's `processed_files`/`pending_files` registries (the handler
is local to `start_monitoring` and the processor holds no reference to it). -/
def scan_dispatches (fs : FS) (dataDir p : String) : Bool :=
  fsExists fs p && under_raw_dir dataDir p && has_nc_glob_ext p
    && !(strContains "_cf" (stemOf (fileNameOf p)))

end CFMonitor

/-- A raw/ tree holding one non-compliant file. -/
def fsRawOld : FS := fun p => if p = "data/raw/a.nc" then some "old" else none

/-- Monitor oracles: both copies succeed; conversion fails cleanly. -/
def orcFailClean : CFMonitor.MonOracle :=
  { copyStdOk := true, copyProcOk := true, conv := oAllFailClean }

/-- Monitor oracles: both copies succeed; every save engine leaves a partial. -/
def orcFailPartial : CFMonitor.MonOracle :=
  { copyStdOk := true, copyProcOk := true, conv := oAllFailPartial }

/-- A raw/ file plus a previously promoted same-named standard/ file. -/
def fsRawAndStd : FS := fun p =>
  if p = "data/raw/a.nc" then some "old"
  else if p = "data/standard/a.nc" then some "promoted" else none

@[simp] theorem fsSet_self (fs : FS) (p c : String) : fsSet fs p c p = some c := by
  simp [fsSet]

theorem fsSet_other (fs : FS) (p c q : String) (h : q ≠ p) : fsSet fs p c q = fs q := by
  simp [fsSet, h]

@[simp] theorem fsDel_self (fs : FS) (p : String) : fsDel fs p p = none := by
  simp [fsDel]

theorem fsDel_other (fs : FS) (p q : String) (h : q ≠ p) : fsDel fs p q = fs q := by
  simp [fsDel, h]

/-- C9: for every validation run the returned result has `is_valid = true` iff
no collected issue is Critical; in particular on open failure the result holds
a Critical `FILE_READ_ERROR` issue and `is_valid = false`. -/
theorem C9_is_valid_iff_no_critical :
    (∀ o : Option CFValidator.NCDataset,
       ((CFValidator.validate_file o).is_valid = true ↔
         ∀ i ∈ (CFValidator.validate_file o).issues, i.level ≠ CFValidator.VLevel.critical))
    ∧ (CFValidator.validate_file none).is_valid = false
    ∧ ∃ i ∈ (CFValidator.validate_file none).issues,
        i.level = CFValidator.VLevel.critical ∧ i.code = "FILE_READ_ERROR" := by
  refine ⟨fun o => ?_, by decide, ?_⟩
  · simp [CFValidator.validate_file, List.isEmpty_iff, List.filter_eq_nil_iff]
  · exact ⟨{ level := .critical, code := "FILE_READ_ERROR",
             message := "无法读取NetCDF文件", location := "file" },
           by simp [CFValidator.validate_file], rfl, rfl⟩

/-- C8: the claim says a dataset whose coordinates include a variable named
`longitude` gets no `MISSING_LONGITUDE` issue.  The code instead iterates the
*characters* of each alias string (`'l','o','n',…,'x'`) and tests those
one-character names against the coordinate names, so the dataset above — with
coordinates literally named `longitude` and `latitude` — is still flagged with
Warning `MISSING_LONGITUDE` and `MISSING_LATITUDE`.  The claim (and the spec's
alias table) describes the evident intent; the code's double loop is a slip. -/
theorem C8_alias_table_bug :
    ((CFValidator.validate_file (some dsNamedLonLat)).issues.filter
        (fun i => decide (i.code = "MISSING_LONGITUDE"))).length = 1
    ∧ ((CFValidator.validate_file (some dsNamedLonLat)).issues.filter
        (fun i => decide (i.code = "MISSING_LATITUDE"))).length = 1
    ∧ CFValidator.has_coord_by_chars ["longitude", "latitude"] ["longitude", "lon", "x"] = false := by
  decide

namespace CFConverter

open CFValidator

theorem lock_path_of_ne (input : String) : lock_path_of input ≠ input := by
  intro h
  have h2 := congrArg String.length h
  have h5 : (".lock" : String).length = 5 := rfl
  rw [lock_path_of, String.length_append, h5] at h2
  omega

theorem applyLeftover_at_out (fs : FS) (out : String) (lo : Option String) :
    applyLeftover fs out lo out = overrideChain (fs out) [lo] := by
  cases lo <;> simp [applyLeftover, overrideChain]

theorem applyLeftover_other (fs : FS) (out : String) (lo : Option String) (p : String)
    (hp : p ≠ out) : applyLeftover fs out lo p = fs p := by
  cases lo <;> simp [applyLeftover, fsSet_other _ _ _ _ hp]

theorem save_dataset_success (fs : FS) (out c : String) (e1 e2 e3 e4 : EngineOutcome)
    (hok : e1 = .ok ∨ e2 = .ok ∨ e3 = .ok ∨ e4 = .ok) :
    (save_dataset fs out c e1 e2 e3 e4).1 = true ∧
      (save_dataset fs out c e1 e2 e3 e4).2 out = some c := by
  cases e1 <;> cases e2 <;> cases e3 <;> cases e4 <;>
    simp_all [save_dataset, attempt_save]

theorem save_dataset_all_fail (fs : FS) (out c : String) (l1 l2 l3 l4 : Option String) :
    (save_dataset fs out c (.fail l1) (.fail l2) (.fail l3) (.fail l4)).1 = false ∧
    (save_dataset fs out c (.fail l1) (.fail l2) (.fail l3) (.fail l4)).2 out
      = overrideChain (fs out) [l1, l2, l3, l4] ∧
    ∀ p, p ≠ out →
      (save_dataset fs out c (.fail l1) (.fail l2) (.fail l3) (.fail l4)).2 p = fs p := by
  refine ⟨by simp [save_dataset, attempt_save], ?_, ?_⟩
  · simp only [save_dataset, attempt_save]
    cases l1 <;> cases l2 <;> cases l3 <;> cases l4 <;>
      simp [applyLeftover, overrideChain, fsSet]
  · intro p hp
    simp only [save_dataset, attempt_save]
    simp [applyLeftover_other _ _ _ _ hp]

theorem save_dataset_other (fs : FS) (out c : String) (e1 e2 e3 e4 : EngineOutcome)
    (p : String) (hp : p ≠ out) :
    (save_dataset fs out c e1 e2 e3 e4).2 p = fs p := by
  cases e1 <;> cases e2 <;> cases e3 <;> cases e4 <;>
    simp_all [save_dataset, attempt_save, applyLeftover_other _ _ _ _ hp,
      fsSet_other _ _ _ _ hp]

theorem convert_body_valid (fs1 : FS) (input output : String)
    (valOf : String → CFValidator.VResult) (o : ConvOracle) (c : String)
    (hc : fs1 input = some c) (hv : (valOf c).is_valid = true) :
    (convert_body fs1 input output true valOf o).1
      = { success := true, message := "文件已符合CF-1.8标准", issues_fixed := [],
          remaining_issues := [], backup_path := none }
    ∧ (output ≠ lock_path_of input →
        (convert_body fs1 input output true valOf o).2 output = some c)
    ∧ (∀ p, p ≠ output → p ≠ lock_path_of input →
        (convert_body fs1 input output true valOf o).2 p = fs1 p) := by
  by_cases hio : input = output
  · subst hio
    refine ⟨by simp [convert_body, valAt, hc, hv], fun hol => ?_, fun p _ hpl => ?_⟩
    · simp [convert_body, valAt, hc, hv, fsDel_other _ _ _ hol]
    · simp [convert_body, valAt, hc, hv, fsDel_other _ _ _ hpl]
  · refine ⟨by simp [convert_body, valAt, hc, hv, hio], fun hol => ?_, fun p hpo hpl => ?_⟩
    · simp [convert_body, valAt, hc, hv, hio, fsDel_other _ _ _ hol]
    · simp [convert_body, valAt, hc, hv, hio, fsDel_other _ _ _ hpl,
        fsSet_other _ _ _ _ hpo]

theorem convert_body_invalid_saveok (fs1 : FS) (input output : String)
    (valOf : String → CFValidator.VResult) (o : ConvOracle) (c tc : String)
    (hc : fs1 input = some c) (hv : (valOf c).is_valid = false)
    (ht : o.transform = some tc)
    (hok : o.e1 = .ok ∨ o.e2 = .ok ∨ o.e3 = .ok ∨ o.e4 = .ok) :
    (convert_body fs1 input output true valOf o).1
      = { success := true, message := "文件转换完成",
          issues_fixed := get_fixed_issues (valOf c) (valOf tc),
          remaining_issues := remaining_of (valOf tc),
          backup_path := some (backup_path_of input) }
    ∧ (output ≠ lock_path_of input →
        (convert_body fs1 input output true valOf o).2 output = some tc) := by
  by_cases hbp : fsExists fs1 (backup_path_of input)
  · obtain ⟨hs1, hs2⟩ := save_dataset_success fs1 output tc o.e1 o.e2 o.e3 o.e4 hok
    refine ⟨by simp [convert_body, valAt, hc, hv, ht, hbp, hs1, hs2], fun hol => ?_⟩
    simp [convert_body, valAt, hc, hv, ht, hbp, hs1, hs2, fsDel_other _ _ _ hol]
  · obtain ⟨hs1, hs2⟩ := save_dataset_success (fsSet fs1 (backup_path_of input) c)
      output tc o.e1 o.e2 o.e3 o.e4 hok
    refine ⟨by simp [convert_body, valAt, hc, hv, ht, hbp, hs1, hs2], fun hol => ?_⟩
    simp [convert_body, valAt, hc, hv, ht, hbp, hs1, hs2, fsDel_other _ _ _ hol]

theorem convert_body_invalid_allfail (fs1 : FS) (input output : String)
    (valOf : String → CFValidator.VResult) (o : ConvOracle) (c tc : String)
    (l1 l2 l3 l4 : Option String)
    (hc : fs1 input = some c) (hv : (valOf c).is_valid = false)
    (ht : o.transform = some tc)
    (h1 : o.e1 = .fail l1) (h2 : o.e2 = .fail l2) (h3 : o.e3 = .fail l3)
    (h4 : o.e4 = .fail l4)
    (hio : input ≠ output) (hib : input ≠ backup_path_of input)
    (hol : output ≠ lock_path_of input) (hob : output ≠ backup_path_of input) :
    (convert_body fs1 input output true valOf o).1.success = false
    ∧ (convert_body fs1 input output true valOf o).1.message = "转换失败"
    ∧ (convert_body fs1 input output true valOf o).2 input = some c
    ∧ (convert_body fs1 input output true valOf o).2 output
        = overrideChain (fs1 output) [l1, l2, l3, l4] := by
  have hil : input ≠ lock_path_of input := (lock_path_of_ne input).symm
  by_cases hbp : fsExists fs1 (backup_path_of input)
  · obtain ⟨hf1, hf2, hf3⟩ := save_dataset_all_fail fs1 output tc l1 l2 l3 l4
    refine ⟨by simp [convert_body, valAt, hc, hv, ht, hbp, h1, h2, h3, h4, hf1],
            by simp [convert_body, valAt, hc, hv, ht, hbp, h1, h2, h3, h4, hf1], ?_, ?_⟩
    · simp [convert_body, valAt, hc, hv, ht, hbp, h1, h2, h3, h4, hf1,
        fsDel_other _ _ _ hil, hf3 input hio, hc]
    · simp [convert_body, valAt, hc, hv, ht, hbp, h1, h2, h3, h4, hf1,
        fsDel_other _ _ _ hol, hf2]
  · obtain ⟨hf1, hf2, hf3⟩ := save_dataset_all_fail (fsSet fs1 (backup_path_of input) c)
      output tc l1 l2 l3 l4
    refine ⟨by simp [convert_body, valAt, hc, hv, ht, hbp, h1, h2, h3, h4, hf1],
            by simp [convert_body, valAt, hc, hv, ht, hbp, h1, h2, h3, h4, hf1], ?_, ?_⟩
    · simp [convert_body, valAt, hc, hv, ht, hbp, h1, h2, h3, h4, hf1,
        fsDel_other _ _ _ hil, hf3 input hio, fsSet_other _ _ _ _ hib, hc]
    · simp [convert_body, valAt, hc, hv, ht, hbp, h1, h2, h3, h4, hf1,
        fsDel_other _ _ _ hol, hf2, fsSet_other _ _ _ _ hob]

theorem convert_body_untouched (fs1 : FS) (input output : String) (bk : Bool)
    (valOf : String → CFValidator.VResult) (o : ConvOracle) (p : String)
    (h1 : p ≠ output) (h2 : p ≠ lock_path_of input) (h3 : p ≠ backup_path_of input) :
    (convert_body fs1 input output bk valOf o).2 p = fs1 p := by
  cases heq : fs1 input with
  | none => simp [convert_body, heq, fsDel_other _ _ _ h2]
  | some c =>
    by_cases hv : (valOf c).is_valid = true
    · by_cases hio : input = output
      · subst hio
        simp [convert_body, valAt, heq, hv, fsDel_other _ _ _ h2]
      · simp [convert_body, valAt, heq, hv, hio, fsDel_other _ _ _ h2,
          fsSet_other _ _ _ _ h1]
    · rw [Bool.not_eq_true] at hv
      cases hbk : bk with
      | false =>
        cases hto : o.transform with
        | none => simp [convert_body, valAt, heq, hv, hto, fsDel_other _ _ _ h2]
        | some tc =>
          simp [convert_body, valAt, heq, hv, hto, apply_ite Prod.snd,
            fsDel_other _ _ _ h2, save_dataset_other _ _ _ _ _ _ _ _ h1]
      | true =>
        by_cases hbp : fsExists fs1 (backup_path_of input)
        · cases hto : o.transform with
          | none => simp [convert_body, valAt, heq, hv, hto, hbp, fsDel_other _ _ _ h2]
          | some tc =>
            simp [convert_body, valAt, heq, hv, hto, hbp, apply_ite Prod.snd,
              fsDel_other _ _ _ h2, save_dataset_other _ _ _ _ _ _ _ _ h1]
        · cases hto : o.transform with
          | none =>
            simp [convert_body, valAt, heq, hv, hto, hbp, fsDel_other _ _ _ h2,
              fsSet_other _ _ _ _ h3]
          | some tc =>
            simp [convert_body, valAt, heq, hv, hto, hbp, apply_ite Prod.snd,
              fsDel_other _ _ _ h2, save_dataset_other _ _ _ _ _ _ _ _ h1,
              fsSet_other _ _ _ _ h3]

theorem convert_file_untouched (fs : FS) (input output : String) (af bk : Bool)
    (valOf : String → CFValidator.VResult) (o : ConvOracle) (p : String)
    (h1 : p ≠ output) (h2 : p ≠ lock_path_of input) (h3 : p ≠ backup_path_of input) :
    (convert_file fs input output af bk valOf o).2 p = fs p := by
  by_cases huf : o.useFcntl = true
  · by_cases hfo : o.flockOk = true
    · simp [convert_file, huf, hfo, convert_body_untouched _ _ _ _ _ _ _ h1 h2 h3,
        fsSet_other _ _ _ _ h2]
    · rw [Bool.not_eq_true] at hfo
      simp [convert_file, huf, hfo, fsDel_other _ _ _ h2, fsSet_other _ _ _ _ h2]
  · rw [Bool.not_eq_true] at huf
    by_cases hex : fsExists fs (lock_path_of input) = true
    · simp [convert_file, huf, hex]
    · rw [Bool.not_eq_true] at hex
      simp [convert_file, huf, hex, convert_body_untouched _ _ _ _ _ _ _ h1 h2 h3,
        fsSet_other _ _ _ _ h2]

theorem mem_get_fixed_issues (a b : CFValidator.VResult) (d : IssueOut) :
    d ∈ get_fixed_issues a b ↔
      ∃ i ∈ a.issues, d = toOut i ∧ ∀ j ∈ b.issues, j.code ≠ i.code := by
  simp only [get_fixed_issues, List.mem_map, List.mem_filter, Bool.and_eq_true,
    Bool.not_eq_true', List.any_eq_false, List.any_eq_true, List.mem_map,
    decide_eq_true_eq, decide_eq_false_iff_not]
  constructor
  · rintro ⟨i, ⟨hi, -, hno⟩, rfl⟩
    refine ⟨i, hi, rfl, fun j hj => ?_⟩
    exact fun hcode => hno j.code ⟨j, hj, rfl⟩ hcode
  · rintro ⟨i, hi, rfl, hno⟩
    refine ⟨i, ⟨hi, ⟨i.code, ⟨i, hi, rfl⟩, rfl⟩, fun cc hcc => ?_⟩, rfl⟩
    obtain ⟨j, hj, rfl⟩ := hcc
    exact hno j hj

theorem mem_remaining_of (b : CFValidator.VResult) (d : IssueOut) :
    d ∈ remaining_of b ↔
      ∃ j ∈ b.issues, j.level = CFValidator.VLevel.critical ∧ d = toOut j := by
  simp only [remaining_of, List.mem_map, List.mem_filter, decide_eq_true_eq]
  constructor
  · rintro ⟨j, ⟨hj, hl⟩, rfl⟩
    exact ⟨j, hj, hl, rfl⟩
  · rintro ⟨j, hj, hl, rfl⟩
    exact ⟨j, ⟨hj, hl⟩, rfl⟩

end CFConverter

open CFConverter in
/-- C2 (amended): `convert_file` persists through the four-step fallback write
chain (netcdf4, h5netcdf, stripped encodings with defaults, legacy classic
format) and the first successful attempt wins; if all four attempts fail the
outcome has `success = false` and the original input file is unchanged.
However, no cleanup of the output path is performed on the way out (only the
lock file is removed in `finally`), so the output path afterwards holds
exactly what the failed engine attempts left there. -/
theorem C2_fallback_write_chain (fs : FS) (input output : String)
    (valOf : String → CFValidator.VResult) (o : ConvOracle) (c tc : String)
    (hacq : acquires fs o input)
    (hc : fs input = some c)
    (hv : (valOf c).is_valid = false)
    (ht : o.transform = some tc)
    (hio : input ≠ output) (hib : input ≠ backup_path_of input)
    (hol : output ≠ lock_path_of input) (hob : output ≠ backup_path_of input) :
    ((o.e1 = .ok ∨ o.e2 = .ok ∨ o.e3 = .ok ∨ o.e4 = .ok) →
        (convert_file fs input output true true valOf o).1.success = true
        ∧ (convert_file fs input output true true valOf o).2 output = some tc)
    ∧ (∀ l1 l2 l3 l4, o.e1 = .fail l1 → o.e2 = .fail l2 → o.e3 = .fail l3 →
        o.e4 = .fail l4 →
        (convert_file fs input output true true valOf o).1.success = false
        ∧ (convert_file fs input output true true valOf o).2 input = some c
        ∧ (convert_file fs input output true true valOf o).2 output
            = overrideChain (fs output) [l1, l2, l3, l4]) := by
  have hil : input ≠ lock_path_of input := (lock_path_of_ne input).symm
  rcases hacq with ⟨huf, hfo⟩ | ⟨huf, hex⟩
  · have hfs1in : fsSet fs (lock_path_of input) "" input = some c := by
      rw [fsSet_other _ _ _ _ hil]; exact hc
    have hfs1out : fsSet fs (lock_path_of input) "" output = fs output :=
      fsSet_other _ _ _ _ hol
    constructor
    · intro hok
      obtain ⟨hb1, hb2⟩ :=
        convert_body_invalid_saveok _ input output valOf o c tc hfs1in hv ht hok
      exact ⟨by simp [convert_file, huf, hfo, hb1], by simp [convert_file, huf, hfo, hb2 hol]⟩
    · intro l1 l2 l3 l4 h1 h2 h3 h4
      obtain ⟨hf1, hf2, hf3, hf4⟩ :=
        convert_body_invalid_allfail _ input output valOf o c tc l1 l2 l3 l4 hfs1in hv ht
          h1 h2 h3 h4 hio hib hol hob
      rw [hfs1out] at hf4
      exact ⟨by simp [convert_file, huf, hfo, hf1], by simp [convert_file, huf, hfo, hf3],
             by simp [convert_file, huf, hfo, hf4]⟩
  · have hfs1in : fsSet fs (lock_path_of input) "locked_by_pid" input = some c := by
      rw [fsSet_other _ _ _ _ hil]; exact hc
    have hfs1out : fsSet fs (lock_path_of input) "locked_by_pid" output = fs output :=
      fsSet_other _ _ _ _ hol
    constructor
    · intro hok
      obtain ⟨hb1, hb2⟩ :=
        convert_body_invalid_saveok _ input output valOf o c tc hfs1in hv ht hok
      exact ⟨by simp [convert_file, huf, hex, hb1], by simp [convert_file, huf, hex, hb2 hol]⟩
    · intro l1 l2 l3 l4 h1 h2 h3 h4
      obtain ⟨hf1, hf2, hf3, hf4⟩ :=
        convert_body_invalid_allfail _ input output valOf o c tc l1 l2 l3 l4 hfs1in hv ht
          h1 h2 h3 h4 hio hib hol hob
      rw [hfs1out] at hf4
      exact ⟨by simp [convert_file, huf, hex, hf1], by simp [convert_file, huf, hex, hf3],
             by simp [convert_file, huf, hex, hf4]⟩

open CFConverter in
theorem C2_fallback_write_chain_witness :
    (convert_file fsOneInput "data/processing/a.nc" "data/standard/a.nc" true true
        valOfBad oAllFailClean).1.success = false
    ∧ (convert_file fsOneInput "data/processing/a.nc" "data/standard/a.nc" true true
        valOfBad oAllFailClean).2 "data/processing/a.nc" = some "old"
    ∧ (convert_file fsOneInput "data/processing/a.nc" "data/standard/a.nc" true true
        valOfBad oAllFailClean).2 "data/standard/a.nc"
        = overrideChain (fsOneInput "data/standard/a.nc") [none, none, none, none] :=
  (C2_fallback_write_chain fsOneInput "data/processing/a.nc" "data/standard/a.nc"
      valOfBad oAllFailClean "old" "new"
      (Or.inr ⟨rfl, by decide⟩) (by decide) (by decide) rfl
      (by decide) (by decide) (by decide) (by decide)).2
    none none none none rfl rfl rfl rfl

open CFConverter in
/-- C2, counterexample to the claim as stated: when every save engine fails
after leaving a partial file, the failed conversion leaves that partial file
visible under the output path — nothing cleans it up on the way out. -/
theorem C2_cex_partial_output_remains :
    (convert_file fsOneInput "data/processing/a.nc" "data/standard/a.nc" true true
        valOfBad oAllFailPartial).1.success = false
    ∧ (convert_file fsOneInput "data/processing/a.nc" "data/standard/a.nc" true true
        valOfBad oAllFailPartial).2 "data/standard/a.nc" = some "partial" := by
  decide

open CFConverter in
/-- C5 (amended): when lock acquisition fails, `convert_file` returns
immediately with `success = false`, the busy message and no backup path, and
it writes neither a backup nor any output — no path other than the lock file
itself is touched.  In the existence-check fallback mode (no fcntl) the
pre-existing lock file is indeed left as it was; but in fcntl mode the
`open(lock_path, 'w')` truncates the lock file and the `finally` block then
deletes it, so the existing lock file is *not* left as it was. -/
theorem C5_lock_busy_no_side_effects (fs : FS) (input output : String)
    (valOf : String → CFValidator.VResult) (o : ConvOracle)
    (hbusy : (o.useFcntl = true ∧ o.flockOk = false)
      ∨ (o.useFcntl = false ∧ fsExists fs (lock_path_of input) = true)) :
    (convert_file fs input output true true valOf o).1.success = false
    ∧ (convert_file fs input output true true valOf o).1.message
        = "文件正在被其他进程处理，跳过转换"
    ∧ (convert_file fs input output true true valOf o).1.backup_path = none
    ∧ (∀ p, p ≠ lock_path_of input →
        (convert_file fs input output true true valOf o).2 p = fs p)
    ∧ (o.useFcntl = false → ∀ p, (convert_file fs input output true true valOf o).2 p = fs p)
    ∧ (o.useFcntl = true →
        (convert_file fs input output true true valOf o).2 (lock_path_of input) = none) := by
  rcases hbusy with ⟨huf, hfo⟩ | ⟨huf, hex⟩
  · refine ⟨?_, ?_, ?_, ?_, ?_, ?_⟩
    · simp [convert_file, huf, hfo, busy_result]
    · simp [convert_file, huf, hfo, busy_result]
    · simp [convert_file, huf, hfo, busy_result]
    · intro p hp
      simp [convert_file, huf, hfo, fsDel_other _ _ _ hp, fsSet_other _ _ _ _ hp]
    · intro h; rw [huf] at h; cases h
    · intro _; simp [convert_file, huf, hfo]
  · refine ⟨?_, ?_, ?_, ?_, ?_, ?_⟩
    · simp [convert_file, huf, hex, busy_result]
    · simp [convert_file, huf, hex, busy_result]
    · simp [convert_file, huf, hex, busy_result]
    · intro p _; simp [convert_file, huf, hex]
    · intro _ p; simp [convert_file, huf, hex]
    · intro h; rw [huf] at h; cases h

open CFConverter in
theorem C5_lock_busy_witness :
    (convert_file fsHeldLock "data/raw/in.nc" "data/standard/in.nc" true true
        valOfBad oFcntlBusy).1.success = false
    ∧ (convert_file fsHeldLock "data/raw/in.nc" "data/standard/in.nc" true true
        valOfBad oFcntlBusy).1.message = "文件正在被其他进程处理，跳过转换"
    ∧ (convert_file fsHeldLock "data/raw/in.nc" "data/standard/in.nc" true true
        valOfBad oFcntlBusy).1.backup_path = none
    ∧ (convert_file fsHeldLock "data/raw/in.nc" "data/standard/in.nc" true true
        valOfBad oFcntlBusy).2 "data/standard/in.nc" = fsHeldLock "data/standard/in.nc" := by
  obtain ⟨h1, h2, h3, h4, -, -⟩ :=
    C5_lock_busy_no_side_effects fsHeldLock "data/raw/in.nc" "data/standard/in.nc"
      valOfBad oFcntlBusy (Or.inl ⟨rfl, rfl⟩)
  exact ⟨h1, h2, h3, h4 _ (by decide)⟩

open CFConverter in
/-- C5, counterexample to the claim as stated: in fcntl mode a failed lock
acquisition does have a filesystem side effect — the pre-existing lock file
(content `held_by_other`) has been deleted when `convert_file` returns. -/
theorem C5_cex_lock_file_removed :
    fsHeldLock "data/raw/in.nc.lock" = some "held_by_other"
    ∧ (convert_file fsHeldLock "data/raw/in.nc" "data/standard/in.nc" true true
        valOfBad oFcntlBusy).1.success = false
    ∧ (convert_file fsHeldLock "data/raw/in.nc" "data/standard/in.nc" true true
        valOfBad oFcntlBusy).2 "data/raw/in.nc.lock" = none := by
  decide

open CFConverter in
/-- C6: when the Validator already reports the input valid, `convert_file`
copies the file unchanged to the output path and returns `success = true`
before any mutation: no backup file is created (`backup_path = none`), no
rewrite of the dataset happens, the input is untouched, and no path other
than the output copy and the converter's own transient lock file changes. -/
theorem C6_valid_short_circuit (fs : FS) (input output : String)
    (valOf : String → CFValidator.VResult) (o : ConvOracle) (c : String)
    (hacq : acquires fs o input)
    (hc : fs input = some c)
    (hv : (valOf c).is_valid = true)
    (hol : output ≠ lock_path_of input) :
    (convert_file fs input output true true valOf o).1.success = true
    ∧ (convert_file fs input output true true valOf o).1.backup_path = none
    ∧ (convert_file fs input output true true valOf o).1.issues_fixed = []
    ∧ (convert_file fs input output true true valOf o).2 output = some c
    ∧ (convert_file fs input output true true valOf o).2 input = some c
    ∧ ∀ p, p ≠ output → p ≠ lock_path_of input →
        (convert_file fs input output true true valOf o).2 p = fs p := by
  have hil : input ≠ lock_path_of input := (lock_path_of_ne input).symm
  rcases hacq with ⟨huf, hfo⟩ | ⟨huf, hex⟩
  · have hfs1in : fsSet fs (lock_path_of input) "" input = some c := by
      rw [fsSet_other _ _ _ _ hil]; exact hc
    obtain ⟨hb1, hb2, hb3⟩ :=
      convert_body_valid (fsSet fs (lock_path_of input) "") input output valOf o c hfs1in hv
    refine ⟨?_, ?_, ?_, ?_, ?_, ?_⟩
    · simp [convert_file, huf, hfo, hb1]
    · simp [convert_file, huf, hfo, hb1]
    · simp [convert_file, huf, hfo, hb1]
    · simp [convert_file, huf, hfo, hb2 hol]
    · by_cases hio : input = output
      · rw [show (convert_file fs input output true true valOf o).2 input
            = (convert_file fs input output true true valOf o).2 output from by rw [hio]]
        simp [convert_file, huf, hfo, hb2 hol]
      · have := hb3 input hio hil
        rw [hfs1in] at this
        simp [convert_file, huf, hfo, this]
    · intro p hpo hpl
      have := hb3 p hpo hpl
      rw [fsSet_other _ _ _ _ hpl] at this
      simp [convert_file, huf, hfo, this]
  · have hfs1in : fsSet fs (lock_path_of input) "locked_by_pid" input = some c := by
      rw [fsSet_other _ _ _ _ hil]; exact hc
    obtain ⟨hb1, hb2, hb3⟩ :=
      convert_body_valid (fsSet fs (lock_path_of input) "locked_by_pid") input output
        valOf o c hfs1in hv
    refine ⟨?_, ?_, ?_, ?_, ?_, ?_⟩
    · simp [convert_file, huf, hex, hb1]
    · simp [convert_file, huf, hex, hb1]
    · simp [convert_file, huf, hex, hb1]
    · simp [convert_file, huf, hex, hb2 hol]
    · by_cases hio : input = output
      · rw [show (convert_file fs input output true true valOf o).2 input
            = (convert_file fs input output true true valOf o).2 output from by rw [hio]]
        simp [convert_file, huf, hex, hb2 hol]
      · have := hb3 input hio hil
        rw [hfs1in] at this
        simp [convert_file, huf, hex, this]
    · intro p hpo hpl
      have := hb3 p hpo hpl
      rw [fsSet_other _ _ _ _ hpl] at this
      simp [convert_file, huf, hex, this]

open CFConverter in
theorem C6_valid_short_circuit_witness :
    (convert_file fsValidInput "data/raw/ok.nc" "data/standard/ok.nc" true true
        valOfBad oAllFailClean).1.success = true
    ∧ (convert_file fsValidInput "data/raw/ok.nc" "data/standard/ok.nc" true true
        valOfBad oAllFailClean).1.backup_path = none
    ∧ (convert_file fsValidInput "data/raw/ok.nc" "data/standard/ok.nc" true true
        valOfBad oAllFailClean).2 "data/standard/ok.nc" = some "compliant"
    ∧ (convert_file fsValidInput "data/raw/ok.nc" "data/standard/ok.nc" true true
        valOfBad oAllFailClean).2 "data/raw/ok.nc" = some "compliant"
    ∧ (convert_file fsValidInput "data/raw/ok.nc" "data/standard/ok.nc" true true
        valOfBad oAllFailClean).2 "data/processing/backup_ok.nc" = none := by
  obtain ⟨h1, h2, -, h4, h5, h6⟩ :=
    C6_valid_short_circuit fsValidInput "data/raw/ok.nc" "data/standard/ok.nc"
      valOfBad oAllFailClean "compliant"
      (Or.inr ⟨rfl, by decide⟩) (by decide) (by decide) (by decide)
  exact ⟨h1, h2, h4, h5, by rw [h6 _ (by decide) (by decide)]; decide⟩

open CFConverter in
/-- C10: after a successful conversion the Validator is re-run on the output;
`issues_fixed` holds exactly the pre-conversion issues whose code no longer
appears in the post-conversion validation, and `remaining_issues` holds
exactly the Critical post-conversion issues — non-Critical residual issues
appear in neither list and the outcome is still a success. -/
theorem C10_fixed_and_remaining (fs : FS) (input output : String)
    (valOf : String → CFValidator.VResult) (o : ConvOracle) (c tc : String)
    (hacq : acquires fs o input)
    (hc : fs input = some c)
    (hv : (valOf c).is_valid = false)
    (ht : o.transform = some tc)
    (hok : o.e1 = .ok ∨ o.e2 = .ok ∨ o.e3 = .ok ∨ o.e4 = .ok) :
    (convert_file fs input output true true valOf o).1.success = true
    ∧ (∀ d, d ∈ (convert_file fs input output true true valOf o).1.issues_fixed ↔
        ∃ i ∈ (valOf c).issues, d = toOut i ∧ ∀ j ∈ (valOf tc).issues, j.code ≠ i.code)
    ∧ (∀ d, d ∈ (convert_file fs input output true true valOf o).1.remaining_issues ↔
        ∃ j ∈ (valOf tc).issues, j.level = CFValidator.VLevel.critical ∧ d = toOut j) := by
  have hil : input ≠ lock_path_of input := (lock_path_of_ne input).symm
  rcases hacq with ⟨huf, hfo⟩ | ⟨huf, hex⟩
  · have hfs1in : fsSet fs (lock_path_of input) "" input = some c := by
      rw [fsSet_other _ _ _ _ hil]; exact hc
    obtain ⟨hb1, -⟩ :=
      convert_body_invalid_saveok (fsSet fs (lock_path_of input) "") input output
        valOf o c tc hfs1in hv ht hok
    refine ⟨by simp [convert_file, huf, hfo, hb1], fun d => ?_, fun d => ?_⟩
    · rw [show (convert_file fs input output true true valOf o).1.issues_fixed
          = get_fixed_issues (valOf c) (valOf tc) from by simp [convert_file, huf, hfo, hb1]]
      exact mem_get_fixed_issues _ _ d
    · rw [show (convert_file fs input output true true valOf o).1.remaining_issues
          = remaining_of (valOf tc) from by simp [convert_file, huf, hfo, hb1]]
      exact mem_remaining_of _ d
  · have hfs1in : fsSet fs (lock_path_of input) "locked_by_pid" input = some c := by
      rw [fsSet_other _ _ _ _ hil]; exact hc
    obtain ⟨hb1, -⟩ :=
      convert_body_invalid_saveok (fsSet fs (lock_path_of input) "locked_by_pid") input
        output valOf o c tc hfs1in hv ht hok
    refine ⟨by simp [convert_file, huf, hex, hb1], fun d => ?_, fun d => ?_⟩
    · rw [show (convert_file fs input output true true valOf o).1.issues_fixed
          = get_fixed_issues (valOf c) (valOf tc) from by simp [convert_file, huf, hex, hb1]]
      exact mem_get_fixed_issues _ _ d
    · rw [show (convert_file fs input output true true valOf o).1.remaining_issues
          = remaining_of (valOf tc) from by simp [convert_file, huf, hex, hb1]]
      exact mem_remaining_of _ d

open CFConverter in
theorem C10_fixed_and_remaining_witness :
    (convert_file fsOneInput "data/processing/a.nc" "data/standard/a.nc" true true
        valOfBad { oAllFailClean with e1 := .ok }).1.success = true
    ∧ ((toOut { level := .critical, code := "MISSING_CONVENTIONS",
                message := "缺少Conventions属性", location := "global" })
        ∈ (convert_file fsOneInput "data/processing/a.nc" "data/standard/a.nc" true true
            valOfBad { oAllFailClean with e1 := .ok }).1.issues_fixed)
    ∧ ¬ ((toOut { level := .warning, code := "VAR_MISSING_UNITS",
                  message := "数据变量 'v' 缺少units属性", location := "variable:v" })
        ∈ (convert_file fsOneInput "data/processing/a.nc" "data/standard/a.nc" true true
            valOfBad { oAllFailClean with e1 := .ok }).1.remaining_issues) := by
  obtain ⟨h1, h2, h3⟩ :=
    C10_fixed_and_remaining fsOneInput "data/processing/a.nc" "data/standard/a.nc"
      valOfBad { oAllFailClean with e1 := .ok } "old" "new"
      (Or.inr ⟨rfl, by decide⟩) (by decide) (by decide) rfl (Or.inl rfl)
  refine ⟨h1, ?_, ?_⟩
  · rw [h2]
    refine ⟨{ level := .critical, code := "MISSING_CONVENTIONS",
              message := "缺少Conventions属性", location := "global",
              suggestion := none }, by decide, rfl, ?_⟩
    intro j hj
    have hg : j ∈ goodVR.issues := by simpa [valOfBad] using hj
    simp only [goodVR, List.mem_singleton] at hg
    subst hg
    decide
  · rw [h3]
    rintro ⟨j, hj, hl, hd⟩
    have : j ∈ goodVR.issues := by simpa [valOfBad] using hj
    simp [goodVR] at this
    subst this
    cases hl

namespace CFMonitor

open CFValidator CFConverter

theorem delayed_check_loop_eq_spec (obs : Nat → PollObs) (fe : Bool)
    (herr : ∀ j, obs j ≠ PollObs.err) :
    ∀ fuel i sc lastSize,
      delayed_check_loop false obs fe fuel i sc lastSize
        = stabilization_spec_loop obs fe fuel i sc lastSize := by
  intro fuel
  induction fuel with
  | zero =>
    intro i sc lastSize
    simp [delayed_check_loop, stabilization_spec_loop]
  | succ n ih =>
    intro i sc lastSize
    cases h : obs i with
    | gone => simp [delayed_check_loop, stabilization_spec_loop, h]
    | err => exact absurd h (herr i)
    | size m pok =>
      by_cases hcond : ((m : Int) = lastSize ∧ m > 0)
      · by_cases hge : sc + 1 ≥ 2
        · cases pok <;>
            simp [delayed_check_loop, stabilization_spec_loop, h, hcond, hge, ih]
        · simp [delayed_check_loop, stabilization_spec_loop, h, hcond, hge, ih]
      · simp [delayed_check_loop, stabilization_spec_loop, h, hcond, ih]

end CFMonitor

/-- C7: the stabilization check implements exactly the claim's algorithm —
loop until `max_wait` (30 s in 2 s polls); abort when the path no longer
exists; increment the stable-count only when the size equals the previous
reading and is non-zero, else reset it; process only once the count reaches
2 consecutive stable reads *and* the open-and-read accessibility probe
succeeds; and on timeout force-process the file if it is still present and
unprocessed, rather than dropping it.  Stated as equality with a second
function written from the claim's wording, over every error-free
observation trace. -/
theorem C7_stabilization_matches_spec (obs : Nat → CFMonitor.PollObs) (fe : Bool)
    (herr : ∀ j, obs j ≠ CFMonitor.PollObs.err) :
    CFMonitor.delayed_file_check false obs fe = CFMonitor.stabilization_spec obs fe :=
  CFMonitor.delayed_check_loop_eq_spec obs fe herr 15 0 0 (-1)

theorem C7_stabilization_matches_spec_witness :
    CFMonitor.delayed_file_check false (fun _ => CFMonitor.PollObs.size 5 true) true
      = CFMonitor.stabilization_spec (fun _ => CFMonitor.PollObs.size 5 true) true
    ∧ CFMonitor.delayed_file_check false (fun _ => CFMonitor.PollObs.size 5 true) true
      = CFMonitor.DOutcome.processedStable :=
  ⟨C7_stabilization_matches_spec (fun _ => CFMonitor.PollObs.size 5 true) true
      (fun _ h => CFMonitor.PollObs.noConfusion h),
   by decide⟩

open CFMonitor in
/-- C4 (amended): two rapid modified events for one path are deduplicated by
the handler's registries — the first schedules exactly one delayed-check
worker and the second schedules none (it is absorbed by the 2-second throttle
or the pending-files map).  The reconciliation scan, however, does not
consult those registries: whatever the handler state says — in particular
even when the path is in `processed_files` — the scan dispatches the
processor directly on every non-`_cf` NetCDF file it finds under `raw/`, so
a scan combined with a live event for the same path can invoke the Converter
twice. -/
theorem C4_event_dedup_but_scan_bypasses (s : HandlerState) (p : String) (t1 t2 : Nat)
    (hnc : is_netcdf_file p = true)
    (hsk : should_skip_file p = false)
    (hpr : p ∉ s.processedFiles)
    (hpd : pending_has s p = false)
    (hth : t1 - s.lastProcessTime p > 2) :
    (on_modified s p t1).2 = true
    ∧ (on_modified (on_modified s p t1).1 p t2).2 = false
    ∧ (∀ s' : HandlerState, ∀ fs : FS, ∀ dd : String,
        p ∈ s'.processedFiles →
        fsExists fs p = true → under_raw_dir dd p = true → has_nc_glob_ext p = true →
        scan_dispatches fs dd p = true) := by
  have hcf : strContains "_cf" (stemOf (fileNameOf p)) = false := by
    have := hsk
    unfold should_skip_file at this
    exact (Bool.or_eq_false_iff.mp this).1
  refine ⟨?_, ?_, ?_⟩
  · simp [on_modified, schedule_delayed_processing, hnc, hsk, hpr, hpd, hth]
  · have hs1 : (on_modified s p t1).1.pendingFiles = (p, t1) :: s.pendingFiles := by
      simp [on_modified, schedule_delayed_processing, hnc, hsk, hpr, hpd, hth]
    have hs2 : (on_modified s p t1).1.processedFiles = s.processedFiles := by
      simp [on_modified, schedule_delayed_processing, hnc, hsk, hpr, hpd, hth]
    have hpd1 : pending_has (on_modified s p t1).1 p = true := by
      simp [pending_has, hs1]
    set S := (on_modified s p t1).1 with hS
    by_cases hth2 : t2 - S.lastProcessTime p > 2
    · simp [on_modified, schedule_delayed_processing, hnc, hsk, hs2, hpr, hth2, hpd1]
    · simp [on_modified, hnc, hsk, hs2, hpr, hth2]
  · intro s' fs dd _ hex hur hext
    simp [scan_dispatches, hex, hur, hext, hcf]

open CFMonitor in
theorem C4_event_dedup_but_scan_bypasses_witness :
    (on_modified ⟨[], fun _ => 0, []⟩ "data/raw/a.nc" 10).2 = true
    ∧ (on_modified (on_modified ⟨[], fun _ => 0, []⟩ "data/raw/a.nc" 10).1
        "data/raw/a.nc" 11).2 = false
    ∧ scan_dispatches fsRawOld "data" "data/raw/a.nc" = true := by
  obtain ⟨h1, h2, h3⟩ :=
    C4_event_dedup_but_scan_bypasses ⟨[], fun _ => 0, []⟩ "data/raw/a.nc" 10 11
      (by decide) (by decide) (by simp) (by decide) (by decide)
  exact ⟨h1, h2, h3 ⟨["data/raw/a.nc"], fun _ => 0, []⟩ fsRawOld "data"
    (by simp) (by decide) (by decide) (by decide)⟩

open CFMonitor in
/-- C4, counterexample to the claim as stated: a live modified event
schedules one worker, whose stabilized run records the path in
`processed_files` and invokes the Converter once (the conversion fails, so
the file stays in `raw/`); the reconciliation scan then still dispatches the
processor for that same path — the dedup registries are never consulted by
`scan_existing_files` — and the second run invokes the Converter again: one
scan plus one live event produced two Converter invocations. -/
theorem C4_cex_scan_and_event_double_convert :
    (on_modified ⟨[], fun _ => 0, []⟩ "data/raw/a.nc" 10).2 = true
    ∧ (after_delayed_check (on_modified ⟨[], fun _ => 0, []⟩ "data/raw/a.nc" 10).1
        "data/raw/a.nc"
        (delayed_file_check false (fun _ => PollObs.size 4 true) true)).processedFiles
        = ["data/raw/a.nc"]
    ∧ (process_file fsRawOld "data" "data/raw/a.nc" valOfBad orcFailClean).1
        = { status := .failed, convInvoked := true }
    ∧ (process_file fsRawOld "data" "data/raw/a.nc" valOfBad orcFailClean).2
        "data/raw/a.nc" = some "old"
    ∧ scan_dispatches
        (process_file fsRawOld "data" "data/raw/a.nc" valOfBad orcFailClean).2
        "data" "data/raw/a.nc" = true
    ∧ (process_file
        (process_file fsRawOld "data" "data/raw/a.nc" valOfBad orcFailClean).2
        "data" "data/raw/a.nc" valOfBad orcFailClean).1.convInvoked = true := by
  decide

open CFMonitor in
/-- C1: for every file processed out of `raw/`, the raw original is deleted
only after success.  Direct promotion: the original is deleted only after the
copy into `standard/` succeeded (and the promoted copy exists); if that copy
raises, the original is retained.  Conversion: the original is deleted only
when the Converter reports success; on every failed run (`failed` or
`errored` status) the raw original still exists with its old content. -/
theorem C1_raw_deleted_only_on_success (fs : FS) (dataDir fp : String)
    (valOf : String → CFValidator.VResult) (orc : MonOracle) (c : String)
    (hc : fs fp = some c)
    (hnc : is_netcdf_file fp = true)
    (hcf : strContains "_cf" (stemOf (fileNameOf fp)) = false)
    (hps : in_processing_or_standard fp = false)
    (hraw : strContains "raw" fp = true)
    (htree : (pathParts dataDir).isPrefixOf (pathParts fp) = true)
    (hd1 : fp ≠ dataDir ++ "/standard" ++ "/" ++ fileNameOf fp)
    (hd2 : fp ≠ dataDir ++ "/processing/" ++ fileNameOf fp)
    (hd3 : fp ≠ dataDir ++ "/standard/" ++ (stemOf (fileNameOf fp) ++ ".nc"))
    (hd4 : fp ≠ CFConverter.lock_path_of (dataDir ++ "/processing/" ++ fileNameOf fp))
    (hd5 : fp ≠ CFConverter.backup_path_of (dataDir ++ "/processing/" ++ fileNameOf fp)) :
    ((valOf c).is_valid = true →
       (orc.copyStdOk = true →
          (process_file fs dataDir fp valOf orc).2 fp = none
          ∧ (process_file fs dataDir fp valOf orc).2
              (dataDir ++ "/standard" ++ "/" ++ fileNameOf fp) = some c)
       ∧ (orc.copyStdOk = false →
          (process_file fs dataDir fp valOf orc).2 fp = some c))
    ∧ ((valOf c).is_valid = false →
       ((process_file fs dataDir fp valOf orc).1.status = .converted →
          (process_file fs dataDir fp valOf orc).2 fp = none)
       ∧ ((process_file fs dataDir fp valOf orc).1.status ≠ .converted →
          (process_file fs dataDir fp valOf orc).2 fp = some c)) := by
  have hex : fsExists fs fp = true := by simp [fsExists, hc]
  constructor
  · intro hv
    constructor
    · intro hcs
      constructor
      · simp [process_file, move_to_standard, hex, hnc, hcf, hps, hraw, htree,
          CFConverter.valAt, hc, hv, hcs, fsSet, fsDel, fsExists, hd1]
      · simp [process_file, move_to_standard, hex, hnc, hcf, hps, hraw, htree,
          CFConverter.valAt, hc, hv, hcs, fsSet, fsDel, fsExists, hd1, Ne.symm hd1]
    · intro hcs
      simp [process_file, move_to_standard, hex, hnc, hcf, hps, hraw, htree,
        CFConverter.valAt, hc, hv, hcs, fsSet, fsDel, fsExists, hd1]
  · intro hv
    by_cases hcp : orc.copyProcOk = true
    · have hfp3 : (fsDel (fsSet fs (dataDir ++ "/processing/" ++ fileNameOf fp) c)
          (dataDir ++ "/standard/" ++ (stemOf (fileNameOf fp) ++ ".nc"))) fp = some c := by
        simp [fsDel, fsSet, hd2, hd3, hc]
      have hr := CFConverter.convert_file_untouched
        (fsDel (fsSet fs (dataDir ++ "/processing/" ++ fileNameOf fp) c)
          (dataDir ++ "/standard/" ++ (stemOf (fileNameOf fp) ++ ".nc")))
        (dataDir ++ "/processing/" ++ fileNameOf fp)
        (dataDir ++ "/standard/" ++ (stemOf (fileNameOf fp) ++ ".nc"))
        true true valOf orc.conv fp hd3 hd4 hd5
      rw [hfp3] at hr
      by_cases hrs : (CFConverter.convert_file
          (fsDel (fsSet fs (dataDir ++ "/processing/" ++ fileNameOf fp) c)
            (dataDir ++ "/standard/" ++ (stemOf (fileNameOf fp) ++ ".nc")))
          (dataDir ++ "/processing/" ++ fileNameOf fp)
          (dataDir ++ "/standard/" ++ (stemOf (fileNameOf fp) ++ ".nc"))
          true true valOf orc.conv).1.success = true
      · constructor
        · intro _
          simp [process_file, convert_and_promote, hex, hnc, hcf, hps, hraw, htree,
            CFConverter.valAt, hc, hv, hd2, hcp, hrs, hr, fsExists, fsDel]
        · intro hne
          exfalso
          exact hne (by simp [process_file, convert_and_promote, hex, hnc, hcf, hps,
            hraw, htree, CFConverter.valAt, hc, hv, hd2, hcp, hrs])
      · rw [Bool.not_eq_true] at hrs
        constructor
        · intro hco
          exfalso
          have : (process_file fs dataDir fp valOf orc).1.status = MStatus.failed := by
            simp [process_file, convert_and_promote, hex, hnc, hcf, hps, hraw, htree,
              CFConverter.valAt, hc, hv, hd2, hcp, hrs]
          rw [hco] at this
          cases this
        · intro _
          simp [process_file, convert_and_promote, hex, hnc, hcf, hps, hraw, htree,
            CFConverter.valAt, hc, hv, hd2, hcp, hrs, hr]
    · rw [Bool.not_eq_true] at hcp
      constructor
      · intro hco
        exfalso
        have : (process_file fs dataDir fp valOf orc).1.status = MStatus.errored := by
          simp [process_file, convert_and_promote, hex, hnc, hcf, hps, hraw, htree,
            CFConverter.valAt, hc, hv, hd2, hcp]
        rw [hco] at this
        cases this
      · intro _
        simp [process_file, convert_and_promote, hex, hnc, hcf, hps, hraw, htree,
          CFConverter.valAt, hc, hv, hd2, hcp]

open CFMonitor in
theorem C1_raw_deleted_only_on_success_witness :
    (process_file fsRawOld "data" "data/raw/a.nc" valOfBad orcFailClean).1.status
      ≠ MStatus.converted
    ∧ (process_file fsRawOld "data" "data/raw/a.nc" valOfBad orcFailClean).2
        "data/raw/a.nc" = some "old" := by
  obtain ⟨-, h2⟩ :=
    C1_raw_deleted_only_on_success fsRawOld "data" "data/raw/a.nc" valOfBad
      orcFailClean "old" (by decide) (by decide) (by decide) (by decide) (by decide)
      (by decide) (by decide) (by decide) (by decide) (by decide) (by decide)
  exact ⟨by decide, (h2 (by decide)).2 (by decide)⟩

namespace CFConverter

open CFValidator

theorem save_dataset_clean_fail (fs : FS) (out c : String) (e1 e2 e3 e4 : EngineOutcome)
    (h1 : ∀ s, e1 ≠ .fail (some s)) (h2 : ∀ s, e2 ≠ .fail (some s))
    (h3 : ∀ s, e3 ≠ .fail (some s)) (h4 : ∀ s, e4 ≠ .fail (some s))
    (hf : (save_dataset fs out c e1 e2 e3 e4).1 = false) :
    (save_dataset fs out c e1 e2 e3 e4).2 = fs := by
  cases e1 with
  | ok => simp [save_dataset, attempt_save] at hf
  | fail lo1 =>
    cases lo1 with
    | some s => exact absurd rfl (h1 s)
    | none =>
      cases e2 with
      | ok => simp [save_dataset, attempt_save, applyLeftover] at hf
      | fail lo2 =>
        cases lo2 with
        | some s => exact absurd rfl (h2 s)
        | none =>
          cases e3 with
          | ok => simp [save_dataset, attempt_save, applyLeftover] at hf
          | fail lo3 =>
            cases lo3 with
            | some s => exact absurd rfl (h3 s)
            | none =>
              cases e4 with
              | ok => simp [save_dataset, attempt_save, applyLeftover] at hf
              | fail lo4 =>
                cases lo4 with
                | some s => exact absurd rfl (h4 s)
                | none => simp [save_dataset, attempt_save, applyLeftover]

theorem convert_body_fail_output_untouched (fs1 : FS) (input output : String) (bk : Bool)
    (valOf : String → CFValidator.VResult) (o : ConvOracle)
    (hcl1 : ∀ s, o.e1 ≠ .fail (some s)) (hcl2 : ∀ s, o.e2 ≠ .fail (some s))
    (hcl3 : ∀ s, o.e3 ≠ .fail (some s)) (hcl4 : ∀ s, o.e4 ≠ .fail (some s))
    (hfail : (convert_body fs1 input output bk valOf o).1.success = false)
    (h2 : output ≠ lock_path_of input) (h3 : output ≠ backup_path_of input) :
    (convert_body fs1 input output bk valOf o).2 output = fs1 output := by
  cases heq : fs1 input with
  | none => simp [convert_body, heq, fsDel_other _ _ _ h2]
  | some c =>
    by_cases hv : (valOf c).is_valid = true
    · exfalso
      simp [convert_body, valAt, heq, hv] at hfail
    · rw [Bool.not_eq_true] at hv
      cases hbk : bk with
      | false =>
        cases hto : o.transform with
        | none => simp [convert_body, valAt, heq, hv, hto, fsDel_other _ _ _ h2]
        | some tc =>
          by_cases hsr : (save_dataset fs1 output tc o.e1 o.e2 o.e3 o.e4).1 = true
          · exfalso
            simp [convert_body, valAt, heq, hv, hto, hbk, hsr] at hfail
          · rw [Bool.not_eq_true] at hsr
            have hclean :=
              save_dataset_clean_fail fs1 output tc _ _ _ _ hcl1 hcl2 hcl3 hcl4 hsr
            simp [convert_body, valAt, heq, hv, hto, hsr, hclean, fsDel_other _ _ _ h2]
      | true =>
        by_cases hbp : fsExists fs1 (backup_path_of input) = true
        · cases hto : o.transform with
          | none => simp [convert_body, valAt, heq, hv, hto, hbp, fsDel_other _ _ _ h2]
          | some tc =>
            by_cases hsr : (save_dataset fs1 output tc o.e1 o.e2 o.e3 o.e4).1 = true
            · exfalso
              simp [convert_body, valAt, heq, hv, hto, hbk, hbp, hsr] at hfail
            · rw [Bool.not_eq_true] at hsr
              have hclean :=
                save_dataset_clean_fail fs1 output tc _ _ _ _ hcl1 hcl2 hcl3 hcl4 hsr
              simp [convert_body, valAt, heq, hv, hto, hbp, hsr, hclean,
                fsDel_other _ _ _ h2]
        · cases hto : o.transform with
          | none =>
            simp [convert_body, valAt, heq, hv, hto, hbp, fsDel_other _ _ _ h2,
              fsSet_other _ _ _ _ h3]
          | some tc =>
            by_cases hsr : (save_dataset (fsSet fs1 (backup_path_of input) c) output tc
                o.e1 o.e2 o.e3 o.e4).1 = true
            · exfalso
              simp [convert_body, valAt, heq, hv, hto, hbk, hbp, hsr] at hfail
            · rw [Bool.not_eq_true] at hsr
              have hclean :=
                save_dataset_clean_fail (fsSet fs1 (backup_path_of input) c) output tc
                  _ _ _ _ hcl1 hcl2 hcl3 hcl4 hsr
              simp [convert_body, valAt, heq, hv, hto, hbp, hsr, hclean,
                fsDel_other _ _ _ h2, fsSet_other _ _ _ _ h3]

theorem convert_file_fail_output_untouched (fs : FS) (input output : String)
    (af bk : Bool) (valOf : String → CFValidator.VResult) (o : ConvOracle)
    (hcl1 : ∀ s, o.e1 ≠ .fail (some s)) (hcl2 : ∀ s, o.e2 ≠ .fail (some s))
    (hcl3 : ∀ s, o.e3 ≠ .fail (some s)) (hcl4 : ∀ s, o.e4 ≠ .fail (some s))
    (hfail : (convert_file fs input output af bk valOf o).1.success = false)
    (h2 : output ≠ lock_path_of input) (h3 : output ≠ backup_path_of input) :
    (convert_file fs input output af bk valOf o).2 output = fs output := by
  by_cases huf : o.useFcntl = true
  · by_cases hfo : o.flockOk = true
    · have hb : (convert_body (fsSet fs (lock_path_of input) "") input output bk
          valOf o).1.success = false := by
        simpa [convert_file, huf, hfo] using hfail
      have hu := convert_body_fail_output_untouched (fsSet fs (lock_path_of input) "")
        input output bk valOf o hcl1 hcl2 hcl3 hcl4 hb h2 h3
      rw [fsSet_other _ _ _ _ h2] at hu
      simpa [convert_file, huf, hfo] using hu
    · rw [Bool.not_eq_true] at hfo
      simp [convert_file, huf, hfo, fsDel_other _ _ _ h2, fsSet_other _ _ _ _ h2]
  · rw [Bool.not_eq_true] at huf
    by_cases hex2 : fsExists fs (lock_path_of input) = true
    · simp [convert_file, huf, hex2]
    · rw [Bool.not_eq_true] at hex2
      have hb : (convert_body (fsSet fs (lock_path_of input) "locked_by_pid") input
          output bk valOf o).1.success = false := by
        simpa [convert_file, huf, hex2] using hfail
      have hu := convert_body_fail_output_untouched
        (fsSet fs (lock_path_of input) "locked_by_pid") input output bk valOf o
        hcl1 hcl2 hcl3 hcl4 hb h2 h3
      rw [fsSet_other _ _ _ _ h2] at hu
      simpa [convert_file, huf, hex2] using hu

end CFConverter

open CFMonitor in
/-- C3 (amended): the monitor deletes a pre-existing same-named `standard/`
file unconditionally before writing (direct path) or before invoking the
Converter (conversion path), and never restores it.  When the Converter is
invoked and fails, `standard/` afterwards contains no file of that name
provided no failed save attempt itself left a partial output there — the
conclusion holds for every initial `standard/` content, so the previously
promoted content is lost, not restored. -/
theorem C3_failed_conversion_empties_standard (fs : FS) (dataDir fp : String)
    (valOf : String → CFValidator.VResult) (orc : MonOracle) (c : String)
    (hc : fs fp = some c)
    (hnc : is_netcdf_file fp = true)
    (hcf : strContains "_cf" (stemOf (fileNameOf fp)) = false)
    (hps : in_processing_or_standard fp = false)
    (hraw : strContains "raw" fp = true)
    (htree : (pathParts dataDir).isPrefixOf (pathParts fp) = true)
    (hd2 : fp ≠ dataDir ++ "/processing/" ++ fileNameOf fp)
    (hval : (valOf c).is_valid = false)
    (hcp : orc.copyProcOk = true)
    (hcl1 : ∀ s, orc.conv.e1 ≠ .fail (some s))
    (hcl2 : ∀ s, orc.conv.e2 ≠ .fail (some s))
    (hcl3 : ∀ s, orc.conv.e3 ≠ .fail (some s))
    (hcl4 : ∀ s, orc.conv.e4 ≠ .fail (some s))
    (hlk : dataDir ++ "/standard/" ++ (stemOf (fileNameOf fp) ++ ".nc")
        ≠ CFConverter.lock_path_of (dataDir ++ "/processing/" ++ fileNameOf fp))
    (hbk : dataDir ++ "/standard/" ++ (stemOf (fileNameOf fp) ++ ".nc")
        ≠ CFConverter.backup_path_of (dataDir ++ "/processing/" ++ fileNameOf fp))
    (hfailed : (process_file fs dataDir fp valOf orc).1.status = .failed) :
    (process_file fs dataDir fp valOf orc).2
      (dataDir ++ "/standard/" ++ (stemOf (fileNameOf fp) ++ ".nc")) = none := by
  have hex : fsExists fs fp = true := by simp [fsExists, hc]
  by_cases hrs : (CFConverter.convert_file
      (fsDel (fsSet fs (dataDir ++ "/processing/" ++ fileNameOf fp) c)
        (dataDir ++ "/standard/" ++ (stemOf (fileNameOf fp) ++ ".nc")))
      (dataDir ++ "/processing/" ++ fileNameOf fp)
      (dataDir ++ "/standard/" ++ (stemOf (fileNameOf fp) ++ ".nc"))
      true true valOf orc.conv).1.success = true
  · exfalso
    have hco : (process_file fs dataDir fp valOf orc).1.status = MStatus.converted := by
      simp [process_file, convert_and_promote, hex, hnc, hcf, hps, hraw, htree,
        CFConverter.valAt, hc, hval, hd2, hcp, hrs]
    rw [hco] at hfailed
    cases hfailed
  · rw [Bool.not_eq_true] at hrs
    have hu := CFConverter.convert_file_fail_output_untouched
      (fsDel (fsSet fs (dataDir ++ "/processing/" ++ fileNameOf fp) c)
        (dataDir ++ "/standard/" ++ (stemOf (fileNameOf fp) ++ ".nc")))
      (dataDir ++ "/processing/" ++ fileNameOf fp)
      (dataDir ++ "/standard/" ++ (stemOf (fileNameOf fp) ++ ".nc"))
      true true valOf orc.conv hcl1 hcl2 hcl3 hcl4 hrs hlk hbk
    rw [fsDel_self] at hu
    simp [process_file, convert_and_promote, hex, hnc, hcf, hps, hraw, htree,
      CFConverter.valAt, hc, hval, hd2, hcp, hrs, hu]

open CFMonitor in
theorem C3_failed_conversion_empties_standard_witness :
    fsRawAndStd "data/standard/a.nc" = some "promoted"
    ∧ (process_file fsRawAndStd "data" "data/raw/a.nc" valOfBad orcFailClean).2
        "data/standard/a.nc" = none := by
  refine ⟨by decide, ?_⟩
  have h := C3_failed_conversion_empties_standard fsRawAndStd "data" "data/raw/a.nc"
    valOfBad orcFailClean "old" (by decide) (by decide) (by decide) (by decide)
    (by decide) (by decide) (by decide) (by decide) (by decide)
    (fun s hh => by simp [orcFailClean, oAllFailClean] at hh)
    (fun s hh => by simp [orcFailClean, oAllFailClean] at hh)
    (fun s hh => by simp [orcFailClean, oAllFailClean] at hh)
    (fun s hh => by simp [orcFailClean, oAllFailClean] at hh)
    (by decide) (by decide) (by decide)
  simpa using h

open CFMonitor in
/-- C3, counterexample to the claim as stated: with a pre-existing promoted
file in `standard/`, a conversion whose save engines fail leaving partial
output ends with status `failed` and `standard/a.nc` holding the partial
file — so `standard/` does contain a file of that name after the failure
(and the previously promoted content is gone either way). -/
theorem C3_cex_partial_file_in_standard :
    fsRawAndStd "data/standard/a.nc" = some "promoted"
    ∧ (process_file fsRawAndStd "data" "data/raw/a.nc" valOfBad orcFailPartial).1.status
        = MStatus.failed
    ∧ (process_file fsRawAndStd "data" "data/raw/a.nc" valOfBad orcFailPartial).2
        "data/standard/a.nc" = some "partial" := by
  decide
